import Mathlib

/-!
Verification of the `mea` asynchronous synchronization toolkit.

This file gives a shallow embedding of the channel (src/mea/src/channel/mod.rs),
the semaphore permit layer (src/mea/src/semaphore/mod.rs) and the reader-writer
lock (src/mea/src/rwlock/mod.rs). Each operation that runs while holding the
channel's async mutex is embedded as one atomic step on the shared state; the
condition variables are modelled by counting the tasks currently suspended on
each of them. The internal semaphore (`crate::internal::Semaphore`), the async
mutex and the condition variable implementations are not among the sources;
where their behaviour decides a property, the definitions are modelled from the
spec and say so in their doc comments.
-/

namespace Mea

/-- The channel's buffer state, from `struct Channel<T>`: a FIFO `buffer`
(`VecDeque<T>`, head at the front of the list) and an optional `capacity`
(`None` means unbounded). -/
structure Channel (α : Type) where
  buffer : List α
  capacity : Option Nat
  deriving Repr, DecidableEq

/-- `Channel::is_empty`: `self.buffer.is_empty()`. -/
def Channel.is_empty (c : Channel α) : Bool :=
  c.buffer.isEmpty

/-- `Channel::is_full`: `self.capacity.map_or(false, |cap| self.buffer.len() >= cap)`. -/
def Channel.is_full (c : Channel α) : Bool :=
  match c.capacity with
  | none => false
  | some cap => decide (c.buffer.length ≥ cap)

/-- `Channel::push_back`: `self.buffer.push_back(item)` appends at the tail. -/
def Channel.push_back (c : Channel α) (item : α) : Channel α :=
  { c with buffer := c.buffer ++ [item] }

/-- `Channel::pop_front`: `self.buffer.pop_front()` removes from the head,
returning the removed value (if any) together with the updated buffer. -/
def Channel.pop_front (c : Channel α) : Option α × Channel α :=
  match c.buffer with
  | [] => (none, c)
  | x :: rest => (some x, { c with buffer := rest })

/-- The shared channel state, from `struct Shared<T>`. The two condition
variables `sender_wait` and `receiver_wait` are represented by the number of
tasks currently suspended on each (modelled from the spec: `notify_all`
resumes every current waiter, `notify_one` at most one, and a notification
with no waiters is discarded; the `Condvar` implementation itself is not among
the sources). `sender_cnt` and `receiver_cnt` count live endpoint handles. -/
structure Shared (α : Type) where
  channel : Channel α
  senderWaiters : Nat
  receiverWaiters : Nat
  disconnected : Bool
  sender_cnt : Nat
  receiver_cnt : Nat
  deriving Repr, DecidableEq

/-- `Shared::disconnect`: stores `true` into `disconnected` and calls
`self.sender_wait.notify_all()`. Note that the source notifies only
`sender_wait`; `receiver_wait` is left untouched. -/
def Shared.disconnect (s : Shared α) : Shared α :=
  { s with disconnected := true, senderWaiters := 0 }

/-- `impl Drop for Sender`: `fetch_sub(1)` on `sender_cnt`; if the previous
value was 1 (this was the last sender), call `Shared::disconnect`. -/
def senderDrop (s : Shared α) : Shared α :=
  if s.sender_cnt = 1 then
    Shared.disconnect { s with sender_cnt := s.sender_cnt - 1 }
  else
    { s with sender_cnt := s.sender_cnt - 1 }

/-- `impl Drop for Receiver`: `fetch_sub(1)` on `receiver_cnt`; if the previous
value was 1, call `Shared::disconnect`. -/
def receiverDrop (s : Shared α) : Shared α :=
  if s.receiver_cnt = 1 then
    Shared.disconnect { s with receiver_cnt := s.receiver_cnt - 1 }
  else
    { s with receiver_cnt := s.receiver_cnt - 1 }

/-- Result of one mutex-holding observation inside `Receiver::recv`. -/
inductive RecvOutcome (α : Type) where
  | ok (value : α)
  | recvErr
  | wait
  deriving Repr, DecidableEq

/-- One iteration of the loop in `Receiver::recv`, performed while holding the
channel mutex: if `pop_front` yields a value, call
`sender_wait.notify_one()` (one suspended sender is resumed, if any) and
return `Ok(item)`; otherwise if disconnected return `Err(RecvError)`;
otherwise suspend on `receiver_wait`. -/
def recvStep (s : Shared α) : RecvOutcome α × Shared α :=
  match s.channel.pop_front with
  | (some item, ch) =>
      (RecvOutcome.ok item,
        { s with channel := ch, senderWaiters := s.senderWaiters - 1 })
  | (none, _) =>
      if s.disconnected then
        (RecvOutcome.recvErr, s)
      else
        (RecvOutcome.wait, { s with receiverWaiters := s.receiverWaiters + 1 })

/-- Result of one mutex-holding observation inside `Sender::send`. -/
inductive SendOutcome (α : Type) where
  | ok
  | sendErr (value : α)
  | wait
  deriving Repr, DecidableEq

/-- One mutex-holding observation inside `Sender::send` (the initial check and
every re-check after a resumption reduce to the same case split): if
disconnected, return `Err(SendError(item))` with the state untouched; else if
the buffer is full, suspend on `sender_wait`; else `push_back(item)`, then
`receiver_wait.notify_one()` and `sender_wait.notify_one()`. -/
def sendStep (s : Shared α) (item : α) : SendOutcome α × Shared α :=
  if s.disconnected then
    (SendOutcome.sendErr item, s)
  else if s.channel.is_full then
    (SendOutcome.wait, { s with senderWaiters := s.senderWaiters + 1 })
  else
    (SendOutcome.ok,
      { s with channel := s.channel.push_back item,
               receiverWaiters := s.receiverWaiters - 1,
               senderWaiters := s.senderWaiters - 1 })

/-- A channel state in which one receiver is suspended on `receiver_wait` and a
single `Sender` handle remains: the situation of claim C1's failing input. -/
def c1FailingState : Shared Nat :=
  { channel := { buffer := [], capacity := some 1 }
    senderWaiters := 0
    receiverWaiters := 1
    disconnected := false
    sender_cnt := 1
    receiver_cnt := 1 }

/-- C1: the claim states that dropping the last `Sender` wakes every receiver
suspended on `receiver_wait`. The code does not: `Shared::disconnect` calls
only `sender_wait.notify_all()`, so for every shared state the number of
suspended receivers is unchanged by `disconnect`; in particular, after the
last `Sender` drops while one receiver is suspended on `receiver_wait`, the
channel is disconnected yet that receiver is still suspended. -/
theorem disconnect_never_wakes_receivers :
    (∀ (s : Shared Nat), (Shared.disconnect s).receiverWaiters = s.receiverWaiters) ∧
    (senderDrop c1FailingState).disconnected = true ∧
    (senderDrop c1FailingState).receiverWaiters = 1 := by
  refine ⟨fun s => rfl, ?_, ?_⟩ <;> rfl

/-- C3: one mutex-holding observation of `Receiver::recv` returns `RecvError`
exactly when the channel is disconnected and the buffer is empty; and whenever
the buffer is non-empty (disconnected or not), `recv` pops the head value,
resumes one suspended sender, and returns `Ok` with that value. -/
theorem recv_err_iff_disconnected_and_empty (s : Shared α) :
    ((recvStep s).1 = RecvOutcome.recvErr ↔
      (s.disconnected = true ∧ s.channel.buffer = [])) ∧
    (∀ v rest, s.channel.buffer = v :: rest →
      recvStep s =
        (RecvOutcome.ok v,
          { s with channel := { s.channel with buffer := rest },
                   senderWaiters := s.senderWaiters - 1 })) := by
  constructor
  · obtain ⟨⟨buf, cap⟩, sw, rw, d, sc, rc⟩ := s
    cases buf with
    | nil =>
      cases d <;> simp [recvStep, Channel.pop_front]
    | cons v rest =>
      cases d <;> simp [recvStep, Channel.pop_front]
  · intro v rest hbuf
    obtain ⟨⟨buf, cap⟩, sw, rw, d, sc, rc⟩ := s
    simp only at hbuf
    subst hbuf
    simp [recvStep, Channel.pop_front]

/-- Witness for C3 at a concrete input: a non-empty buffer `[7, 8]` with one
suspended sender; `recv` pops `7`, resumes the sender, and returns `Ok 7`. -/
theorem recv_err_iff_disconnected_and_empty_witness :
    recvStep { channel := { buffer := [7, 8], capacity := none },
               senderWaiters := 1, receiverWaiters := 0,
               disconnected := false, sender_cnt := 1, receiver_cnt := 1 } =
      (RecvOutcome.ok 7,
        { channel := { buffer := [8], capacity := none },
          senderWaiters := 0, receiverWaiters := 0,
          disconnected := false, sender_cnt := 1, receiver_cnt := 1 }) :=
  (recv_err_iff_disconnected_and_empty _).2 7 [8] rfl

/-- C4: whenever `Sender::send` fails, it returns `SendError` carrying exactly
the value passed in, the channel was disconnected, and the whole shared state
(in particular the buffer) is unchanged: the value was never pushed. -/
theorem send_err_carries_value (s : Shared α) (item v : α) (s' : Shared α)
    (h : sendStep s item = (SendOutcome.sendErr v, s')) :
    v = item ∧ s' = s ∧ s.disconnected = true := by
  by_cases hd : s.disconnected
  · simp [sendStep, hd] at h
    exact ⟨h.1.symm, h.2.symm, hd⟩
  · by_cases hf : s.channel.is_full <;> simp [sendStep, hd, hf] at h

/-- Witness for C4 at a concrete input: a disconnected channel; `send 3`
returns `SendError 3` and the state is untouched. -/
theorem send_err_carries_value_witness :
    (3 : Nat) = 3 ∧
    ({ channel := { buffer := [], capacity := some 1 }, senderWaiters := 0,
       receiverWaiters := 0, disconnected := true, sender_cnt := 1,
       receiver_cnt := 0 } : Shared Nat) =
      { channel := { buffer := [], capacity := some 1 }, senderWaiters := 0,
        receiverWaiters := 0, disconnected := true, sender_cnt := 1,
        receiver_cnt := 0 } ∧
    ({ channel := { buffer := [], capacity := some 1 }, senderWaiters := 0,
       receiverWaiters := 0, disconnected := true, sender_cnt := 1,
       receiver_cnt := 0 } : Shared Nat).disconnected = true :=
  send_err_carries_value _ 3 3 _ rfl

/-- A channel history state: the buffer together with the disconnect flag and
two ghost histories, `sent` (the values successfully pushed by `send`, in
push order) and `received` (the values returned by successful `recv`s, in
return order). The ghost lists record the trace; the `channel` and
`disconnected` fields evolve exactly as in the source. -/
structure ChanState (α : Type) where
  channel : Channel α
  disconnected : Bool
  sent : List α
  received : List α
  deriving Repr, DecidableEq

/-- The atomic mutex-holding transitions of the channel, from the source:
a `send` completes its push only when the channel is not disconnected and the
buffer is not full (`Sender::send`'s wait loop); a `recv` pops only when the
buffer is non-empty (`Receiver::recv`); `disconnect` may happen at any time
(last endpoint of either kind dropped) and only sets the flag. -/
inductive ChanStep : ChanState α → ChanState α → Prop where
  | send (v : α) (s : ChanState α)
      (hd : s.disconnected = false) (hf : s.channel.is_full = false) :
      ChanStep s
        { channel := s.channel.push_back v
          disconnected := s.disconnected
          sent := s.sent ++ [v]
          received := s.received }
  | recv (v : α) (rest : List α) (s : ChanState α)
      (hb : s.channel.buffer = v :: rest) :
      ChanStep s
        { channel := { s.channel with buffer := rest }
          disconnected := s.disconnected
          sent := s.sent
          received := s.received ++ [v] }
  | disconnect (s : ChanState α) :
      ChanStep s { s with disconnected := true }

/-- The initial state of a channel created by `bounded(cap)` (`capacity = some
cap`) or `unbounded()` (`capacity = none`): empty buffer, not disconnected. -/
def chanInit (cap : Option Nat) (α : Type) : ChanState α :=
  { channel := { buffer := [], capacity := cap }
    disconnected := false
    sent := []
    received := [] }

/-- The channel states reachable from `chanInit cap` by any interleaving of
completed sends, completed recvs and disconnection. -/
inductive ChanReachable (cap : Option Nat) : ChanState α → Prop where
  | init : ChanReachable cap (chanInit cap α)
  | step {s s' : ChanState α} :
      ChanReachable cap s → ChanStep s s' → ChanReachable cap s'

theorem ChanStep.capacity_eq {s s' : ChanState α} (h : ChanStep s s') :
    s'.channel.capacity = s.channel.capacity := by
  cases h <;> rfl

/-- The combined inductive invariant of the channel state machine: the
capacity never changes, the push history equals the pop history followed by
the current buffer, and a bounded buffer never exceeds its capacity. -/
theorem chanReachable_invariant {cap : Option Nat} {s : ChanState α}
    (h : ChanReachable cap s) :
    s.channel.capacity = cap ∧
    s.sent = s.received ++ s.channel.buffer ∧
    (∀ c, cap = some c → s.channel.buffer.length ≤ c) := by
  induction h with
  | init => exact ⟨rfl, rfl, fun c hc => by simp [chanInit]⟩
  | step hr hstep ih =>
    obtain ⟨hcap, hhist, hlen⟩ := ih
    cases hstep with
    | send v t hd hf =>
      refine ⟨hcap, ?_, ?_⟩
      · simp [Channel.push_back, hhist]
      · intro c hc
        subst hc
        rw [Channel.is_full, hcap] at hf
        simp only [decide_eq_false_iff_not, not_le] at hf
        simpa [Channel.push_back] using hf
    | recv v rest t hb =>
      refine ⟨hcap, ?_, ?_⟩
      · simp only [hhist, hb]
        simp
      · intro c hc
        have := hlen c hc
        rw [hb] at this
        simp only [List.length_cons] at this
        simpa using Nat.le_of_succ_le this
    | disconnect t =>
      exact ⟨hcap, hhist, hlen⟩

/-- C5: for a channel created by `bounded(cap)`, every reachable state
satisfies `buffer.len() ≤ cap`: `send` pushes only after its wait loop has
established the buffer is not full, so no interleaving of sends and recvs
makes the buffer exceed the capacity. -/
theorem bounded_buffer_within_capacity {cap : Nat} {s : ChanState α}
    (h : ChanReachable (some cap) s) :
    s.channel.buffer.length ≤ cap :=
  (chanReachable_invariant h).2.2 cap rfl

/-- A concrete trace for the witnesses: `bounded(2)`, send 5, send 6, recv. -/
def chanTraceState : ChanState Nat :=
  { channel := { buffer := [6], capacity := some 2 }
    disconnected := false
    sent := [5, 6]
    received := [5] }

theorem chanTraceState_reachable : ChanReachable (some 2) chanTraceState := by
  have h0 : ChanReachable (some 2) (chanInit (some 2) Nat) := ChanReachable.init
  have h1 := ChanReachable.step h0 (ChanStep.send 5 _ rfl rfl)
  have h2 := ChanReachable.step h1 (ChanStep.send 6 _ rfl rfl)
  exact ChanReachable.step h2 (ChanStep.recv 5 [6] _ rfl)

/-- Witness for C5 at a concrete reachable state: after send 5, send 6, recv
on a `bounded(2)` channel, the buffer holds one value, within capacity. -/
theorem bounded_buffer_within_capacity_witness :
    chanTraceState.channel.buffer.length ≤ 2 :=
  bounded_buffer_within_capacity chanTraceState_reachable

/-- C6: values are delivered in FIFO order. In every reachable state the push
history equals the pop history followed by the current buffer, so the i-th
successfully received value is the i-th successfully pushed value. -/
theorem channel_fifo_order {cap : Option Nat} {s : ChanState α}
    (h : ChanReachable cap s) :
    s.sent = s.received ++ s.channel.buffer ∧
    ∀ i, i < s.received.length → s.sent[i]? = s.received[i]? := by
  have hhist := (chanReachable_invariant h).2.1
  refine ⟨hhist, fun i hi => ?_⟩
  rw [hhist]
  exact List.getElem?_append_left hi

/-- Witness for C6: on the concrete trace (send 5, send 6, recv), the history
invariant holds and the first received value is the first sent value. -/
theorem channel_fifo_order_witness :
    chanTraceState.sent = chanTraceState.received ++ chanTraceState.channel.buffer ∧
    chanTraceState.sent[0]? = chanTraceState.received[0]? :=
  ⟨(channel_fifo_order chanTraceState_reachable).1,
    (channel_fifo_order chanTraceState_reachable).2 0 (by decide)⟩

/-- C10: for a channel created by `bounded(0)`, `is_full` is `true` regardless
of buffer contents, so `send` never pushes: the buffer is empty in every
reachable state, and a single mutex-holding observation of `send` either
suspends (not disconnected) or returns `SendError(item)` with the state
untouched (disconnected); it never returns `Ok`. -/
theorem zero_capacity_never_delivers {s : ChanState α} {sh : Shared β}
    (item : β) (h : ChanReachable (some 0) s)
    (hc : sh.channel.capacity = some 0) :
    s.channel.buffer = [] ∧
    sh.channel.is_full = true ∧
    (sendStep sh item).1 ≠ SendOutcome.ok ∧
    (sendStep sh item).2.channel.buffer = sh.channel.buffer ∧
    (sh.disconnected = false → sendStep sh item =
      (SendOutcome.wait, { sh with senderWaiters := sh.senderWaiters + 1 })) ∧
    (sh.disconnected = true → sendStep sh item = (SendOutcome.sendErr item, sh)) := by
  have hbuf : s.channel.buffer = [] :=
    List.length_eq_zero.mp
      (Nat.le_zero.mp ((chanReachable_invariant h).2.2 0 rfl))
  have hfull : sh.channel.is_full = true := by
    rw [Channel.is_full, hc]
    simp
  refine ⟨hbuf, hfull, ?_, ?_, ?_, ?_⟩
  · cases hd : sh.disconnected <;> simp [sendStep, hd, hfull]
  · cases hd : sh.disconnected <;> simp [sendStep, hd, hfull]
  · intro hd; simp [sendStep, hd, hfull]
  · intro hd; simp [sendStep, hd]

/-- Witness for C10 at concrete inputs: the initial `bounded(0)` state and a
zero-capacity shared state; `send 9` suspends rather than delivering. -/
theorem zero_capacity_never_delivers_witness :
    (chanInit (some 0) Nat).channel.buffer = [] ∧
    ({ buffer := [], capacity := some 0 } : Channel Nat).is_full = true ∧
    (sendStep { channel := { buffer := [], capacity := some 0 },
                senderWaiters := 0, receiverWaiters := 0, disconnected := false,
                sender_cnt := 1, receiver_cnt := 1 } (9 : Nat)).1 ≠ SendOutcome.ok := by
  have h := @zero_capacity_never_delivers Nat Nat (chanInit (some 0) Nat)
    { channel := { buffer := [], capacity := some 0 },
      senderWaiters := 0, receiverWaiters := 0, disconnected := false,
      sender_cnt := 1, receiver_cnt := 1 }
    9 ChanReachable.init rfl
  exact ⟨h.1, h.2.1, h.2.2.1⟩

/-- Modelled from the spec: the state of `crate::internal::Semaphore`, whose
implementation is not among the sources. `permits` is the number of
immediately available permits; `waiters` is the FIFO queue of suspended
acquirers, each recorded by the number of permits it still requires
(`needed`). -/
structure InternalSemaphore where
  permits : Nat
  waiters : List Nat
  deriving Repr, DecidableEq

/-- Modelled from the spec: the wakeup loop of `release` hands permits to the
head waiter as long as the head's `needed` is at most the available permits,
removing each satisfied waiter; it stops at the first unsatisfiable head. -/
def wakeWaiters : Nat → List Nat → Nat × List Nat
  | p, [] => (p, [])
  | p, needed :: rest =>
      if needed ≤ p then wakeWaiters (p - needed) rest
      else (p, needed :: rest)

/-- Modelled from the spec: `release(n)` returns `n` permits and then wakes
satisfiable head waiters in FIFO order. -/
def InternalSemaphore.release (s : InternalSemaphore) (n : Nat) : InternalSemaphore :=
  let (p, w) := wakeWaiters (s.permits + n) s.waiters
  { permits := p, waiters := w }

/-- Modelled from the spec: `forget(n)` permanently removes `min(n, permits)`
permits, returns the number actually removed, and never touches the waiter
queue. -/
def InternalSemaphore.forget (s : InternalSemaphore) (n : Nat) :
    Nat × InternalSemaphore :=
  let removed := min n s.permits
  (removed, { s with permits := s.permits - removed })

/-- Modelled from the spec: `try_acquire(n)` succeeds only if the waiter queue
is empty and `permits ≥ n`; on success it decrements `permits` by `n`. -/
def InternalSemaphore.try_acquire (s : InternalSemaphore) (n : Nat) :
    Bool × InternalSemaphore :=
  if s.waiters.isEmpty ∧ n ≤ s.permits then
    (true, { s with permits := s.permits - n })
  else
    (false, s)

/-- `pub struct Semaphore` from src/mea/src/semaphore/mod.rs: a wrapper over
the internal semaphore. -/
structure Semaphore where
  s : InternalSemaphore
  deriving Repr, DecidableEq

/-- `Semaphore::new(permits)`: a fresh internal semaphore with the given
permits and no waiters. -/
def Semaphore.new (permits : Nat) : Semaphore :=
  { s := { permits := permits, waiters := [] } }

/-- `Semaphore::available_permits`. -/
def Semaphore.available_permits (sem : Semaphore) : Nat :=
  sem.s.permits

/-- `Semaphore::forget(n)`: delegates to the internal semaphore's `forget`. -/
def Semaphore.forget (sem : Semaphore) (n : Nat) : Nat × Semaphore :=
  let (removed, s) := sem.s.forget n
  (removed, { s := s })

/-- `Semaphore::release(permits)`: delegates to the internal semaphore. -/
def Semaphore.release (sem : Semaphore) (permits : Nat) : Semaphore :=
  { s := sem.s.release permits }

/-- `pub struct SemaphorePermit` from src/mea/src/semaphore/mod.rs: records
the number of permits this permit holds (the borrowed semaphore reference is
passed explicitly where needed). -/
structure SemaphorePermit where
  permits : Nat
  deriving Repr, DecidableEq

/-- `Semaphore::try_acquire(permits)`: on success of the internal
`try_acquire`, returns the updated semaphore and a permit holding `permits`. -/
def Semaphore.try_acquire (sem : Semaphore) (n : Nat) :
    Option (Semaphore × SemaphorePermit) :=
  let (ok, s) := sem.s.try_acquire n
  if ok then some ({ s := s }, { permits := n }) else none

/-- `SemaphorePermit::forget(mut self)`: sets `self.permits = 0`, so the drop
that follows releases nothing. -/
def SemaphorePermit.forget (_ : SemaphorePermit) : SemaphorePermit :=
  { permits := 0 }

/-- `impl Drop for SemaphorePermit`: `self.sem.release(self.permits)`. -/
def SemaphorePermit.dropPermit (sem : Semaphore) (p : SemaphorePermit) : Semaphore :=
  sem.release p.permits

/-- C7: for every semaphore with `p` available permits, `forget(n)` returns
`min(n, p)`, decreases the available permits by exactly `min(n, p)` (in
particular the count never goes below zero: the removed amount plus the
remaining permits equals `p`), and leaves the waiter queue untouched. -/
theorem forget_removes_min (sem : Semaphore) (n : Nat) :
    (sem.forget n).1 = min n sem.s.permits ∧
    (sem.forget n).2.s.permits + min n sem.s.permits = sem.s.permits ∧
    (sem.forget n).2.s.waiters = sem.s.waiters := by
  refine ⟨rfl, ?_, rfl⟩
  exact Nat.sub_add_cancel (Nat.min_le_right n sem.s.permits)

/-- C8: after acquiring `k ≤ m` permits from `Semaphore::new(m)`, calling
`forget` on the permit and dropping it leaves `available_permits()` at
`m − k` (the drop releases zero), whereas dropping the permit without
forgetting returns all `k` permits, restoring `m`. -/
theorem permit_forget_makes_drop_noop (m k : Nat) (h : k ≤ m) :
    (Semaphore.new m).try_acquire k =
      some ({ s := { permits := m - k, waiters := [] } }, { permits := k }) ∧
    (SemaphorePermit.dropPermit { s := { permits := m - k, waiters := [] } }
        (SemaphorePermit.forget { permits := k })).s.permits = m - k ∧
    (SemaphorePermit.dropPermit { s := { permits := m - k, waiters := [] } }
        { permits := k }).s.permits = m := by
  refine ⟨?_, rfl, ?_⟩
  · simp [Semaphore.new, Semaphore.try_acquire, InternalSemaphore.try_acquire, h]
  · show (wakeWaiters (m - k + k) []).1 = m
    rw [Nat.sub_add_cancel h]
    rfl

/-- Witness for C8 at the spec's scenario S6: `Semaphore::new(10)`, acquire 5,
forget the permit, drop it: 5 permits remain; a non-forgotten drop restores
10. -/
theorem permit_forget_makes_drop_noop_witness :
    (Semaphore.new 10).try_acquire 5 =
      some ({ s := { permits := 5, waiters := [] } }, { permits := 5 }) ∧
    (SemaphorePermit.dropPermit { s := { permits := 5, waiters := [] } }
        (SemaphorePermit.forget { permits := 5 })).s.permits = 5 ∧
    (SemaphorePermit.dropPermit { s := { permits := 5, waiters := [] } }
        { permits := 5 }).s.permits = 10 :=
  permit_forget_makes_drop_noop 10 5 (by decide)

/-- `RwLock::new`'s default cap, from src/mea/src/rwlock/mod.rs:
`let default_max_readers = u32::MAX >> 1`. -/
def default_max_readers : Nat := (2 ^ 32 - 1) >>> 1

/-- `pub struct RwLock`, from src/mea/src/rwlock/mod.rs: the cap, and the
coordinating semaphore (`crate::internal::Semaphore`). The guarded value is
irrelevant to the claims and omitted. -/
structure RwLock where
  max_readers : Nat
  s : InternalSemaphore
  deriving Repr, DecidableEq

/-- `RwLock::with_max_readers(t, max_readers)`: `Semaphore::new(max_readers)`. -/
def RwLock.with_max_readers (m : Nat) : RwLock :=
  { max_readers := m, s := { permits := m, waiters := [] } }

/-- `RwLock::new(t)`: `with_max_readers` at the default cap. -/
def RwLock.mk_new : RwLock :=
  RwLock.with_max_readers default_max_readers

/-- `pub struct RwLockWriteGuard`: records `permits_acquired`, the number of
permits the guard's drop will release. -/
structure RwLockWriteGuard where
  permits_acquired : Nat
  deriving Repr, DecidableEq

/-- `RwLock::try_write`: `self.s.try_acquire(self.max_readers)`; on success
the guard records `permits_acquired = max_readers`. -/
def RwLock.try_write (l : RwLock) : Option (RwLock × RwLockWriteGuard) :=
  let (ok, s) := l.s.try_acquire l.max_readers
  if ok then some ({ l with s := s }, { permits_acquired := l.max_readers })
  else none

/-- `RwLock::try_read`: `self.s.try_acquire(1)`; the read guard holds one
permit and carries no count of its own. -/
def RwLock.try_read (l : RwLock) : Option RwLock :=
  let (ok, s) := l.s.try_acquire 1
  if ok then some { l with s := s } else none

/-- `impl Drop for RwLockWriteGuard`: `self.s.release(self.permits_acquired)`. -/
def writeGuardDrop (l : RwLock) (g : RwLockWriteGuard) : RwLock :=
  { l with s := l.s.release g.permits_acquired }

/-- `impl Drop for RwLockReadGuard`: `self.s.release(1)`. -/
def readGuardDrop (l : RwLock) : RwLock :=
  { l with s := l.s.release 1 }

/-- An instantaneous observation of a reader-writer lock built over a
semaphore of `m` permits: the available permits and the numbers of
outstanding read and write guards. -/
structure RwState where
  available : Nat
  readers : Nat
  writers : Nat
  deriving Repr, DecidableEq

/-- The permit motions of the lock, from the source: a read acquisition
(`read` completing, or `try_read` succeeding) takes 1 permit; a write
acquisition takes `m` permits; a read-guard drop returns 1; a write-guard
drop returns `m` (`permits_acquired`). An acquisition can only complete when
the permits it takes are available. -/
inductive RwStep (m : Nat) : RwState → RwState → Prop where
  | acquireRead (s : RwState) (h : 1 ≤ s.available) :
      RwStep m s ⟨s.available - 1, s.readers + 1, s.writers⟩
  | acquireWrite (s : RwState) (h : m ≤ s.available) :
      RwStep m s ⟨s.available - m, s.readers, s.writers + 1⟩
  | dropRead (s : RwState) (h : 1 ≤ s.readers) :
      RwStep m s ⟨s.available + 1, s.readers - 1, s.writers⟩
  | dropWrite (s : RwState) (h : 1 ≤ s.writers) :
      RwStep m s ⟨s.available + m, s.readers, s.writers - 1⟩

/-- The lock states reachable from a fresh `with_max_readers(m)` lock (all
`m` permits available, no guards) by any sequence of acquisitions and guard
drops. -/
inductive RwReachable (m : Nat) : RwState → Prop where
  | init : RwReachable m ⟨m, 0, 0⟩
  | step {s s' : RwState} :
      RwReachable m s → RwStep m s s' → RwReachable m s'

/-- Permit conservation for the reader-writer lock: in every reachable state,
the available permits plus one per read guard plus `m` per write guard equal
`m`. -/
theorem rwReachable_conservation {m : Nat} {s : RwState}
    (h : RwReachable m s) :
    s.available + s.readers + m * s.writers = m := by
  induction h with
  | init => simp
  | step hr hstep ih =>
    rename_i t t'
    cases hstep with
    | acquireRead ht => simp only at ih ⊢; omega
    | acquireWrite ht =>
      simp only [Nat.mul_succ] at ih ⊢
      omega
    | dropRead ht => simp only at ih ⊢; omega
    | dropWrite ht =>
      obtain ⟨w, hw⟩ : ∃ w, t.writers = w + 1 :=
        ⟨t.writers - 1, (Nat.succ_pred_eq_of_pos ht).symm⟩
      rw [hw] at ih ⊢
      simp only [Nat.add_sub_cancel, Nat.mul_succ] at ih ⊢
      omega

/-- The RW-exclusion invariant exactly as the spec words it, for comparison
with the code: at most `max_readers − 1` read guards and zero write guards,
or zero read guards and at most one write guard. -/
def specClaimedRwExclusion (m : Nat) (s : RwState) : Prop :=
  (s.readers ≤ m - 1 ∧ s.writers = 0) ∨ (s.readers = 0 ∧ s.writers ≤ 1)

/-- C2 counterexample: the claim fails on the code. With `max_readers = 1`, a
single successful `try_read` yields a reachable state with one read guard,
but the claim allows at most `1 − 1 = 0` read guards. With `max_readers = 0`,
a write acquisition takes `0` permits and always succeeds, so two write
guards coexist in a reachable state, contradicting "at most one write guard
... including when m = 0". -/
theorem rw_exclusion_claim_false :
    (RwReachable 1 ⟨0, 1, 0⟩ ∧ ¬ specClaimedRwExclusion 1 ⟨0, 1, 0⟩) ∧
    (RwReachable 0 ⟨0, 0, 2⟩ ∧ ¬ specClaimedRwExclusion 0 ⟨0, 0, 2⟩) := by
  refine ⟨⟨?_, ?_⟩, ⟨?_, ?_⟩⟩
  · exact RwReachable.step RwReachable.init (RwStep.acquireRead ⟨1, 0, 0⟩ (by decide))
  · unfold specClaimedRwExclusion; decide
  · exact RwReachable.step
      (RwReachable.step RwReachable.init (RwStep.acquireWrite ⟨0, 0, 0⟩ (by decide)))
      (RwStep.acquireWrite ⟨0, 0, 1⟩ (by decide))
  · unfold specClaimedRwExclusion; decide

/-- C2 amended: for every lock with `max_readers = m ≥ 1`, every reachable
state has either at most `m` read guards and zero write guards, or zero read
guards and at most one write guard. -/
theorem rw_exclusion_amended {m : Nat} {s : RwState}
    (hm : 1 ≤ m) (h : RwReachable m s) :
    (s.readers ≤ m ∧ s.writers = 0) ∨ (s.readers = 0 ∧ s.writers ≤ 1) := by
  have hc := rwReachable_conservation h
  rcases Nat.eq_zero_or_pos s.writers with hw | hw
  · left
    rw [hw, Nat.mul_zero] at hc
    exact ⟨by omega, hw⟩
  · right
    have hmw : m ≤ m * s.writers := Nat.le_mul_of_pos_right m hw
    have hr : s.readers = 0 := by
      generalize m * s.writers = k at hc hmw
      omega
    have hk : m * s.writers = m := by
      generalize hg : m * s.writers = k at hc hmw
      omega
    have hw1 : s.writers = 1 := by
      have := hk.trans (Nat.mul_one m).symm
      exact Nat.eq_of_mul_eq_mul_left hm this
    exact ⟨hr, hw1.le⟩

/-- Witness for the amended C2 at a concrete input: `max_readers = 1` and the
reachable state with one read guard satisfies the amended exclusion. -/
theorem rw_exclusion_amended_witness :
    (RwState.readers ⟨0, 1, 0⟩ ≤ 1 ∧ RwState.writers ⟨0, 1, 0⟩ = 0) ∨
    (RwState.readers ⟨0, 1, 0⟩ = 0 ∧ RwState.writers ⟨0, 1, 0⟩ ≤ 1) :=
  rw_exclusion_amended (by decide)
    (RwReachable.step RwReachable.init (RwStep.acquireRead ⟨1, 0, 0⟩ (by decide)))

/-- C9: `try_write` on a fresh lock with cap `m` acquires exactly `m`
permits (the guard records `permits_acquired = m` and the semaphore drops to
0), and the guard's drop releases exactly those `m` permits, restoring `m`;
the default cap installed by `RwLock::new` is `u32::MAX >> 1 = 2^31 − 1`,
strictly below `u32::MAX = 2^32 − 1`; and in every reachable state of a lock
using the default cap, releasing a writer's `max_readers` permits stays below
`2^32`, so the writer's request of exactly `max_readers` permits cannot
overflow. -/
theorem write_acquires_max_readers (m : Nat) (s : RwState)
    (h : RwReachable default_max_readers s) :
    (∀ l g, (RwLock.with_max_readers m).try_write = some (l, g) →
      g.permits_acquired = m ∧ l.s.permits = 0 ∧
      (writeGuardDrop l g).s.permits = m) ∧
    RwLock.mk_new = RwLock.with_max_readers default_max_readers ∧
    default_max_readers = 2 ^ 31 - 1 ∧
    default_max_readers < 2 ^ 32 - 1 ∧
    s.available + default_max_readers < 2 ^ 32 := by
  refine ⟨?_, rfl, by decide, by decide, ?_⟩
  · intro l g hl
    have hsome :
        (RwLock.with_max_readers m).try_write =
          some ({ max_readers := m, s := { permits := m - m, waiters := [] } },
            { permits_acquired := m }) := by
      simp [RwLock.with_max_readers, RwLock.try_write,
        InternalSemaphore.try_acquire]
    rw [hsome] at hl
    obtain ⟨rfl, rfl⟩ : ({ max_readers := m, s := { permits := m - m, waiters := [] } } : RwLock) = l ∧
        ({ permits_acquired := m } : RwLockWriteGuard) = g := by
      have := Option.some.inj hl
      exact ⟨congrArg Prod.fst this, congrArg Prod.snd this⟩
    refine ⟨rfl, by simp, ?_⟩
    show (wakeWaiters (m - m + m) []).1 = m
    rw [Nat.sub_self, Nat.zero_add]
    rfl
  · have hc := rwReachable_conservation h
    have ha : s.available ≤ default_max_readers := by
      generalize default_max_readers * s.writers = k at hc
      omega
    have : default_max_readers + default_max_readers < 2 ^ 32 := by decide
    omega

/-- Witness for C9 at concrete inputs: the fresh default-cap lock state, and
`try_write` on a lock with cap 4. -/
theorem write_acquires_max_readers_witness :
    (∀ l g, (RwLock.with_max_readers 4).try_write = some (l, g) →
      g.permits_acquired = 4 ∧ l.s.permits = 0 ∧
      (writeGuardDrop l g).s.permits = 4) ∧
    RwState.available ⟨default_max_readers, 0, 0⟩ + default_max_readers < 2 ^ 32 :=
  ⟨(write_acquires_max_readers 4 ⟨default_max_readers, 0, 0⟩ RwReachable.init).1,
    (write_acquires_max_readers 4 ⟨default_max_readers, 0, 0⟩ RwReachable.init).2.2.2.2⟩

end Mea
